import Mathlib

/-!
Verification of the GSC ingestion service (`src/services/ingestion/gsc.ts`).

The four exported functions of the module — `normalizeRow`,
`fetchGSCDataForDate`, `ingestGSCData` and `writeToFirestoreInBatches` — are
shallowly embedded below.  Effects (the GSC API client, Firestore, timers,
logging) are modelled as explicit inputs/outputs: the API client becomes a
list of per-request responses, the Firestore batch commit becomes an oracle
function, and logging is dropped (it does not affect any returned value).
-/

deriving instance DecidableEq for Except

namespace SeoEdge

/-! ### Model of the WHATWG URL behaviour used by the source

The source calls Node's `new URL(...)`, `url.searchParams` (iteration and
`delete`), `url.protocol`, `url.hostname`, `url.pathname` and `url.search`.
The model below reproduces that behaviour for absolute `http(s)` URLs:
the parser lower-cases scheme and host, leaves path casing untouched,
defaults an absent path to `/`, drops the fragment, and parses the query
into an ordered list of name/value pairs.  Percent-encoding and `+`
decoding are not modelled; no input considered here contains them.
-/

/-- Split a character list at the first character satisfying `p`:
returns the characters before it and the remainder starting with it. -/
def splitFirst (p : Char → Bool) : List Char → List Char × List Char
  | [] => ([], [])
  | c :: cs =>
    if p c then ([], c :: cs)
    else
      let r := splitFirst p cs
      (c :: r.1, r.2)

/-- Split a character list on `&` (the `application/x-www-form-urlencoded`
pair separator), keeping empty pieces. -/
def splitAmp : List Char → List (List Char)
  | [] => [[]]
  | '&' :: rest => [] :: splitAmp rest
  | c :: rest =>
    match splitAmp rest with
    | [] => [[c]]
    | g :: gs => (c :: g) :: gs

/-- Parse a query string (without the leading `?`) into ordered name/value
pairs; empty pieces are skipped, a piece without `=` gets an empty value. -/
def parseQuery (cs : List Char) : List (String × String) :=
  (splitAmp cs).filterMap fun piece =>
    if piece = [] then none
    else
      let r := splitFirst (fun c => c = '=') piece
      some (⟨r.1⟩, ⟨match r.2 with | [] => [] | _ :: v => v⟩)

/-- Result of a successful `new URL(...)` parse, restricted to the
properties the source reads. -/
structure ParsedURL where
  protocol : String
  hostname : String
  pathname : String
  params : List (String × String)
  deriving Repr, DecidableEq

/-- Model of `new URL(s)` for absolute `http(s)` URLs: `none` models the
thrown `TypeError` for unparsable input.  The parser lower-cases the scheme
and host, defaults an absent path to `/`, and drops userinfo, port and
fragment (none of which the source reassembles). -/
def parseURL (s : String) : Option ParsedURL :=
  match splitFirst (fun c => c = ':') s.data with
  | (schemeCs, ':' :: '/' :: '/' :: rest) =>
    let scheme := schemeCs.map Char.toLower
    if scheme = "http".data ∨ scheme = "https".data then
      let a := splitFirst (fun c => c = '/' ∨ c = '?' ∨ c = '#') rest
      let host := (splitFirst (fun c => c = ':') a.1).1
      if host ≠ [] ∧ host.all (fun c => c ≠ ' ') then
        let pa := splitFirst (fun c => c = '?' ∨ c = '#') a.2
        let pathname : String := if pa.1 = [] then "/" else ⟨pa.1⟩
        let queryCs : List Char :=
          match pa.2 with
          | '?' :: q => (splitFirst (fun c => c = '#') q).1
          | _ => []
        some { protocol := ⟨scheme ++ [':']⟩
               hostname := ⟨host.map Char.toLower⟩
               pathname := pathname
               params := parseQuery queryCs }
      else none
    else none
  | _ => none

/-- `s.toLowerCase()` on ASCII data (character-wise lower-casing). -/
def lowerStr (s : String) : String := ⟨s.data.map Char.toLower⟩

/-- `s.toUpperCase()` on ASCII data (character-wise upper-casing). -/
def upperStr (s : String) : String := ⟨s.data.map Char.toUpper⟩

/-- Whether the first list leads the second (character-wise). -/
def startsWithChars : List Char → List Char → Bool
  | [], _ => true
  | _ :: _, [] => false
  | a :: as, b :: bs => a = b && startsWithChars as bs

/-- `key.toLowerCase().startsWith('utm_')`. -/
def isUtmKey (k : String) : Bool :=
  startsWithChars "utm_".data (k.data.map Char.toLower)

/-- One step of Node's `URLSearchParams.forEach` with a `delete` in the
callback: the iterator keeps an index into the live pair list, the callback
deletes every pair whose name equals the current key, and the index then
advances by one — so the pair immediately after a deleted one is skipped.
`fuel` starts at the initial list length, which bounds the number of
iterations exactly (the index grows by one per step and the list never
grows). -/
def stripUtmAux : Nat → Nat → List (String × String) → List (String × String)
  | 0, _, l => l
  | fuel + 1, i, l =>
    match l.drop i with
    | [] => l
    | (k, _) :: _ =>
      if isUtmKey k then stripUtmAux fuel (i + 1) (l.filter (fun p => p.1 ≠ k))
      else stripUtmAux fuel (i + 1) l

/-- The source's `url.searchParams.forEach((_, key) => { if (key.toLowerCase()
.startsWith('utm_')) url.searchParams.delete(key); })`. -/
def stripUtm (l : List (String × String)) : List (String × String) :=
  stripUtmAux l.length 0 l

/-- Serialize name/value pairs back as `k=v` joined by `&`. -/
def joinParams : List (String × String) → String
  | [] => ""
  | [(k, v)] => k ++ "=" ++ v
  | (k, v) :: rest => k ++ "=" ++ v ++ "&" ++ joinParams rest

/-- `url.search`: empty when there are no pairs, otherwise `?` followed by
the serialized pairs. -/
def searchOf (params : List (String × String)) : String :=
  match params with
  | [] => ""
  | _ => "?" ++ joinParams params

/-- The source's trailing-slash step:
`if (path.length > 1 && path.endsWith('/')) path = path.slice(0, -1)`. -/
def stripTrailingSlash (p : String) : String :=
  if 1 < p.data.length ∧ p.data.getLast? = some '/' then ⟨p.data.dropLast⟩
  else p

/-- The URL-canonicalization block of `normalizeRow` (gsc.ts lines 183–198):
parse the page, delete `utm_` parameters via `forEach`, strip one trailing
slash from a non-root path, reassemble as
`protocol//hostname.toLowerCase() + path + search`; on a parse failure fall
back to the page itself, or to `INVALID_URL` when the page is empty. -/
def canonicalizeUrl (finalPage : String) : String :=
  match parseURL finalPage with
  | none => if finalPage = "" then "INVALID_URL" else finalPage
  | some u =>
    let params := stripUtm u.params
    let path := stripTrailingSlash u.pathname
    u.protocol ++ "//" ++ lowerStr u.hostname ++ path ++ searchOf params

/-! ### `normalizeRow` -/

/-- A raw GSC API row (`Schema$ApiDataRow`): five optional positional keys
and four optional numeric measures.  The measures are modelled as `Nat`;
no claim concerns their arithmetic, only the `|| 0` defaulting. -/
structure GscApiRow where
  keys : Option (List (Option String)) := none
  clicks : Option Nat := none
  impressions : Option Nat := none
  ctr : Option Nat := none
  position : Option Nat := none
  deriving Repr, DecidableEq

/-- The Firestore document produced by `normalizeRow`.  `ingestedAt` is a
server-assigned timestamp stamped by the store at commit time and is not
part of the value-level behaviour modelled here. -/
structure GscFirestoreDoc where
  siteUrl : String
  normalizedUrl : String
  query : String
  date : String
  impressions : Nat
  clicks : Nat
  position : Nat
  ctr : Nat
  device : String
  country : String
  searchAppearance : String
  deriving Repr, DecidableEq

/-- JavaScript `x || d` for an optional string `x`: `undefined`/`null` and
the empty string are falsy. -/
def jsOr (o : Option String) (d : String) : String :=
  match o with
  | some s => if s = "" then d else s
  | none => d

/-- `rawRow.keys[i]` after `rawRow.keys || []`: `none` models both a short
keys array and a `null` element. -/
def keyAt (r : GscApiRow) (i : Nat) : Option String :=
  (r.keys.getD []).getD i none

/-- Shallow embedding of `normalizeRow` (gsc.ts lines 172–214). -/
def normalizeRow (rawRow : GscApiRow) (siteUrl date : String) : GscFirestoreDoc :=
  let finalPage := jsOr (keyAt rawRow 0) ""
  { siteUrl := siteUrl
    normalizedUrl := canonicalizeUrl finalPage
    query := jsOr (keyAt rawRow 1) ""
    date := date
    impressions := rawRow.impressions.getD 0
    clicks := rawRow.clicks.getD 0
    position := rawRow.position.getD 0
    ctr := rawRow.ctr.getD 0
    device := jsOr (keyAt rawRow 2) "UNKNOWN"
    country := upperStr (jsOr (keyAt rawRow 3) "zzz")
    searchAppearance := jsOr (keyAt rawRow 4) "NONE" }

/-! ### `fetchGSCDataForDate`

The GSC API client is modelled as the list of responses the API returns to
the successive requests the fetcher issues: requests are sequential (each
depends on the previous page's size), so the interaction is a list.  A
response either carries the returned rows (`ok`, with `[]` covering both an
empty `rows` array and a `null`/absent one) or fails (`err`, any thrown
request error).  The model returns the fetch outcome together with the
`startRow` value of every request issued, in order.
-/

/-- One response of the GSC API to one `searchanalytics.query` request. -/
inductive GscResponse where
  | ok (rows : List GscApiRow)
  | err
  deriving Repr, DecidableEq

/-- The error message thrown after retry exhaustion
(`Failed to fetch GSC data for ${date} after ${maxRetries} attempts.`). -/
def fetchErrMsg (date : String) (maxRetries : Nat) : String :=
  "Failed to fetch GSC data for " ++ date ++ " after " ++ Nat.repr maxRetries
    ++ " attempts."

/-- The `while (hasMore)` loop of `fetchGSCDataForDate` (gsc.ts lines
123–163), one recursive step per request.  `startRow` and `attempt` are the
loop variables; a successful response appends its rows, advances `startRow`
by their count, resets `attempt` to 0 and continues only on a full page
(`rows.length === rowLimit`); a failed response retries the same `startRow`
while `attempt < maxRetries` and otherwise throws.  The `[]` base case
(response list exhausted mid-loop) is unreachable under every hypothesis
used below. -/
def fetchLoop (date : String) (rowLimit maxRetries : Nat) :
    List GscResponse → Nat → Nat → Except String (List GscApiRow) × List Nat
  | [], _, _ => (Except.ok [], [])
  | GscResponse.ok rows :: rest, startRow, _ =>
    if rows.length = 0 then (Except.ok [], [startRow])
    else if rows.length = rowLimit then
      let r := fetchLoop date rowLimit maxRetries rest (startRow + rows.length) 0
      (Except.map (fun more => rows ++ more) r.1, startRow :: r.2)
    else (Except.ok rows, [startRow])
  | GscResponse.err :: rest, startRow, attempt =>
    if attempt < maxRetries then
      let r := fetchLoop date rowLimit maxRetries rest startRow (attempt + 1)
      (r.1, startRow :: r.2)
    else (Except.error (fetchErrMsg date maxRetries), [startRow])

/-- Shallow embedding of `fetchGSCDataForDate` (gsc.ts lines 108–166):
`rowLimit = 25000`, `maxRetries = 5`, starting at `startRow = 0`,
`attempt = 0`. -/
def fetchGSCDataForDate (date : String) (responses : List GscResponse) :
    Except String (List GscApiRow) × List Nat :=
  fetchLoop date 25000 5 responses 0 0

/-! ### `ingestGSCData`

The orchestrator iterates the calendar days of `[startDate, endDate]`; for
each day it fetches, normalizes, and (when the day has rows) persists, and
a `catch` swallows any per-day error.  A day's interaction with the two
collaborators is summarized by a `DayRun`: the fetch outcome and whether
the Firestore write succeeds.  The date arithmetic that enumerates the days
is host-library behaviour (`Date`/`toISOString`) and is abstracted as the
list of per-day runs, in calendar order.
-/

/-- Outcome of one day's collaborator calls. -/
structure DayRun where
  fetchResult : Except String (List GscApiRow)
  persistOk : Bool
  deriving Repr

/-- The per-day `try`/`catch` body of `ingestGSCData` (gsc.ts lines 86–98),
as a fold step on `totalRowsWritten`: a fetch error contributes nothing; a
fetched day with rows adds its row count only when the write succeeds; a
day with zero rows writes nothing. -/
def processDay (total : Nat) (d : DayRun) : Nat :=
  match d.fetchResult with
  | Except.error _ => total
  | Except.ok rows =>
    if 0 < rows.length then
      if d.persistOk then total + rows.length else total
    else total

/-- Shallow embedding of `ingestGSCData` (gsc.ts lines 66–103): missing
inputs (empty strings are falsy) short-circuit to
`{success: false, totalRowsWritten: 0}`; otherwise the loop runs every day
and the function returns `{success: true, totalRowsWritten}`
unconditionally. -/
def ingestGSCData (siteUrl startDate endDate : String) (days : List DayRun) :
    Bool × Nat :=
  if siteUrl = "" ∨ startDate = "" ∨ endDate = "" then (false, 0)
  else (true, days.foldl processDay 0)

/-- The number of rows one day adds to `totalRowsWritten`: its fetched row
count when the fetch succeeded, the day had rows, and the write succeeded;
zero otherwise. -/
def dayWritten (d : DayRun) : Nat :=
  match d.fetchResult with
  | Except.error _ => 0
  | Except.ok rows => if 0 < rows.length ∧ d.persistOk then rows.length else 0

/-- The row count a day's successful fetch returned (zero on fetch error). -/
def dayRows (d : DayRun) : Nat :=
  match d.fetchResult with
  | Except.ok rows => rows.length
  | Except.error _ => 0

/-! ### `writeToFirestoreInBatches`

The slicing loop `for (let i = 0; i < documents.length; i += batchSize)`
partitions the documents into `slice(i, i + batchSize)` chunks; each chunk
is committed as one batch, and a commit failure rethrows the original error
and leaves the loop.  The store is modelled as a commit oracle from the
batch index and its documents to a result; the embedding returns the list
of batches whose commit was attempted (index and contents, in order)
together with the final outcome.
-/

/-- `slice`-based chunking: `fuel` starts at the list length, which bounds
the number of loop iterations (each iteration consumes at least one
element since `n > 0` in the source, where `n = 500`). -/
def chunksOfAux (n : Nat) : Nat → List α → List (List α)
  | _, [] => []
  | 0, l => [l]
  | fuel + 1, l => l.take n :: chunksOfAux n fuel (l.drop n)

/-- Partition a list into successive chunks of `n` (the last one shorter),
preserving order. -/
def chunksOf (n : Nat) (l : List α) : List (List α) :=
  chunksOfAux n l.length l

/-- The commit loop over the chunk list: each batch is attempted in order;
a failing commit stops the loop and propagates its error unchanged. -/
def commitBatches (commit : Nat → List GscFirestoreDoc → Except String Unit) :
    List (List GscFirestoreDoc) → Nat →
      List (Nat × List GscFirestoreDoc) × Except String Unit
  | [], _ => ([], Except.ok ())
  | c :: rest, i =>
    match commit i c with
    | Except.ok _ =>
      let r := commitBatches commit rest (i + 1)
      ((i, c) :: r.1, r.2)
    | Except.error e => ([(i, c)], Except.error e)

/-- Shallow embedding of `writeToFirestoreInBatches` (gsc.ts lines
220–243): chunk into batches of 500 and commit them in order against the
store oracle `commit`. -/
def writeToFirestoreInBatches
    (commit : Nat → List GscFirestoreDoc → Except String Unit)
    (documents : List GscFirestoreDoc) :
    List (Nat × List GscFirestoreDoc) × Except String Unit :=
  commitBatches commit (chunksOf 500 documents) 0

/-- A store oracle whose commits always succeed. -/
def okCommit : Nat → List GscFirestoreDoc → Except String Unit :=
  fun _ _ => Except.ok ()

/-- A store oracle failing exactly on the batch at index 1. -/
def failsAtOneCommit : Nat → List GscFirestoreDoc → Except String Unit :=
  fun i _ => if i = 1 then Except.error "permission denied" else Except.ok ()

/-- An all-defaults raw row, used for concrete instances. -/
def blankRow : GscApiRow := {}

/-- An all-defaults document, used for concrete instances. -/
def blankDoc : GscFirestoreDoc :=
  normalizeRow blankRow "sc-domain:example.com" "2023-01-01"

/-- A raw row whose page is the unparsable string of the repository's own
normalization test. -/
def rowInvalidUrl : GscApiRow :=
  { keys := some [some "not a valid url", some "q", some "MOBILE",
                  some "usa", some "web"]
    clicks := some 10, impressions := some 100 }

/-- A raw row whose page carries two adjacent `utm_` parameters followed by
a non-tracking one. -/
def rowUtm : GscApiRow :=
  { keys := some [some "https://example.com/page?utm_source=google&utm_medium=cpc&other=param",
                  some "q", some "MOBILE", some "usa", some "web"] }

/-- A raw row whose page has an upper-case path. -/
def rowUpperPath : GscApiRow :=
  { keys := some [some "https://EXAMPLE.com/PAGE", some "q", some "MOBILE",
                  some "usa", some "web"] }

/-- A raw row whose page is a root URL with a trailing slash. -/
def rowRoot : GscApiRow :=
  { keys := some [some "https://example.com/", some "q", some "MOBILE",
                  some "usa", some "web"] }

/-- A raw row with only three keys: the country key (index 3) is absent. -/
def rowNoCountry : GscApiRow :=
  { keys := some [some "https://example.com/", some "q", some "DESKTOP"] }

/-- A raw row whose country key is the lower-case code `usa`. -/
def rowWithCountry : GscApiRow :=
  { keys := some [some "https://example.com/", some "q", some "DESKTOP",
                  some "usa", some "web"] }

/-- C1: the claim says a non-empty unparsable page yields the sentinel
`INVALID_URL`; the code (`normalizedUrl = finalPage || 'INVALID_URL'`)
instead returns the unparsable page string unchanged, contradicting the
repository's own test `should return "INVALID_URL" for a malformed URL
string`.  At the test's input `not a valid url` the returned record carries
the input itself, not the sentinel. -/
theorem normalizeRow_unparsable_page_c1 :
    (normalizeRow rowInvalidUrl "sc-domain:example.com" "2023-01-01").normalizedUrl
      = "not a valid url"
    ∧ (normalizeRow rowInvalidUrl "sc-domain:example.com" "2023-01-01").normalizedUrl
      ≠ "INVALID_URL" := by decide

/-- C2: the claim says every `utm_` query parameter is removed; the code
deletes inside `URLSearchParams.forEach`, whose live-list iteration skips
the entry that follows each deleted one, so the adjacent `utm_medium`
survives at the repository's own test input. -/
theorem normalizeRow_utm_skip_c2 :
    (normalizeRow rowUtm "sc-domain:example.com" "2023-01-01").normalizedUrl
      = "https://example.com/page?utm_medium=cpc&other=param"
    ∧ (normalizeRow rowUtm "sc-domain:example.com" "2023-01-01").normalizedUrl
      ≠ "https://example.com/page?other=param" := by decide

/-- C3: the claim says the full path is lower-cased and the root path `/`
loses its trailing slash; the code lower-cases only the hostname and its
`path.length > 1` guard keeps the root slash, contradicting the
repository's own tests at `https://EXAMPLE.com/PAGE` and
`https://example.com/`. -/
theorem normalizeRow_path_case_root_c3 :
    (normalizeRow rowUpperPath "sc-domain:example.com" "2023-01-01").normalizedUrl
      = "https://example.com/PAGE"
    ∧ (normalizeRow rowUpperPath "sc-domain:example.com" "2023-01-01").normalizedUrl
      ≠ "https://example.com/page"
    ∧ (normalizeRow rowRoot "sc-domain:example.com" "2023-01-01").normalizedUrl
      = "https://example.com/"
    ∧ (normalizeRow rowRoot "sc-domain:example.com" "2023-01-01").normalizedUrl
      ≠ "https://example.com" := by decide

/-- C5: the claim (and the repository's test assertion
`toHaveBeenCalledTimes(maxRetries)`) says exactly 5 requests are issued
under persistent failure; the code's `if (attempt < maxRetries)` retry
guard issues the initial request plus 5 retries — 6 requests — before
throwing the error that names the date and the `maxRetries` budget. -/
theorem fetchGSCDataForDate_six_requests_c5 :
    fetchGSCDataForDate "2023-01-01" (List.replicate 6 GscResponse.err)
      = (Except.error "Failed to fetch GSC data for 2023-01-01 after 5 attempts.",
         List.replicate 6 0)
    ∧ (List.replicate 6 (0 : Nat)).length ≠ 5 := by decide

/-- C9 counterexample: the claim says an absent country key defaults to
`UNKNOWN`; the code computes `(country || 'zzz').toUpperCase()`, so a row
with no country key gets `ZZZ`. -/
theorem normalizeRow_country_counterexample_c9 :
    (normalizeRow rowNoCountry "sc-domain:example.com" "2023-01-01").country = "ZZZ"
    ∧ (normalizeRow rowNoCountry "sc-domain:example.com" "2023-01-01").country
      ≠ "UNKNOWN" := by decide

/-- C9 (amended): the country field is the upper-cased input country when
the country key is present and non-empty, and the default `ZZZ` (the
upper-casing of the `zzz` placeholder) when the key is absent or empty. -/
theorem normalizeRow_country_c9 (r : GscApiRow) (siteUrl date : String) :
    (keyAt r 3 = none ∨ keyAt r 3 = some "" →
      (normalizeRow r siteUrl date).country = "ZZZ")
    ∧ (∀ c, keyAt r 3 = some c → c ≠ "" →
      (normalizeRow r siteUrl date).country = upperStr c) := by
  constructor
  · rintro (h | h) <;> simp [normalizeRow, jsOr, h] <;> decide
  · intro c hc hne
    simp [normalizeRow, jsOr, hc, hne]

/-- C9 witness: the amended characterization at a row without a country key
and at a row whose country is `usa`. -/
theorem normalizeRow_country_c9_witness :
    (normalizeRow rowNoCountry "sc-domain:example.com" "2023-01-01").country = "ZZZ"
    ∧ (normalizeRow rowWithCountry "sc-domain:example.com" "2023-01-01").country
      = upperStr "usa" :=
  ⟨(normalizeRow_country_c9 rowNoCountry "sc-domain:example.com" "2023-01-01").1
      (Or.inl rfl),
   (normalizeRow_country_c9 rowWithCountry "sc-domain:example.com" "2023-01-01").2
      "usa" rfl (by decide)⟩

/-- Pagination behaviour of the fetch loop, generalized over the starting
offset and attempt counter: fed any number of full pages (of exactly
`L > 0` rows each) followed by one short page, the loop succeeds with the
concatenation of all pages and issues one request per page, at offsets
`s, s + L, s + 2L, ...`. -/
theorem fetchLoop_pages (date : String) (L m : Nat) (hL : 0 < L)
    (last : List GscApiRow) (hlast : last.length < L) :
    ∀ (full : List (List GscApiRow)), (∀ p ∈ full, p.length = L) → ∀ (s a : Nat),
      fetchLoop date L m (full.map GscResponse.ok ++ [GscResponse.ok last]) s a
        = (Except.ok (full.flatten ++ last),
           (List.range (full.length + 1)).map (fun i => s + L * i)) := by
  intro full
  induction full with
  | nil =>
    intro _ s a
    by_cases h0 : last.length = 0
    · have hnil : last = [] := List.eq_nil_of_length_eq_zero h0
      subst hnil
      simp [fetchLoop, List.range_succ]
    · have hne : ¬ last.length = L := Nat.ne_of_lt hlast
      simp [fetchLoop, h0, hne, List.range_succ]
  | cons p full ih =>
    intro hfull s a
    have hp : p.length = L := hfull p (List.mem_cons_self _ _)
    have hp0 : ¬ p.length = 0 := by omega
    have hrec := ih (fun q hq => hfull q (List.mem_cons_of_mem _ hq)) (s + p.length) 0
    simp only [List.map_cons, List.cons_append, fetchLoop]
    rw [if_neg hp0, if_pos hp]
    simp only [List.append_eq]
    rw [hrec]
    simp only [Except.map, Prod.mk.injEq]
    refine ⟨?_, ?_⟩
    · simp [List.flatten_cons, List.append_assoc]
    · have hmap : (List.range (full.length + 1 + 1)).map (fun i => s + L * i)
          = s :: (List.range (full.length + 1)).map (fun i => s + L + L * i) := by
        rw [List.range_succ_eq_map, List.map_cons, List.map_map]
        simp only [Function.comp, Nat.mul_zero, Nat.add_zero]
        refine congrArg (List.cons s) ?_
        apply List.map_congr_left
        intro i _
        simp only [Function.comp_apply, Nat.succ_eq_add_one]
        ring
      rw [hp, List.length_cons, hmap]

/-- C4: pagination of `fetchGSCDataForDate`: for any N full pages of
exactly 25000 rows followed by one shorter (possibly empty) page, the
fetcher issues exactly N+1 requests with `startRow` values
`0, 25000, 2*25000, ...` and returns the concatenation of all pages in
request order; in particular a zero-row first page (N = 0, empty last
page) yields an empty result, not an error. -/
theorem fetchGSCDataForDate_pagination_c4 (date : String)
    (full : List (List GscApiRow)) (last : List GscApiRow)
    (hfull : ∀ p ∈ full, p.length = 25000) (hlast : last.length < 25000) :
    fetchGSCDataForDate date (full.map GscResponse.ok ++ [GscResponse.ok last])
      = (Except.ok (full.flatten ++ last),
         (List.range (full.length + 1)).map (fun i => 25000 * i)) := by
  have h := fetchLoop_pages date 25000 5 (by norm_num) last hlast full hfull 0 0
  unfold fetchGSCDataForDate
  rw [h]
  refine congrArg (Prod.mk _) ?_
  apply List.map_congr_left
  intro i _
  omega

/-- C4 witness: one full page of 25000 rows followed by a one-row page —
two requests at offsets 0 and 25000 and the 25001 rows in order; the
hypotheses are discharged concretely. -/
theorem fetchGSCDataForDate_pagination_c4_witness :
    fetchGSCDataForDate "2023-01-01"
        ([List.replicate 25000 blankRow].map GscResponse.ok
          ++ [GscResponse.ok [blankRow]])
      = (Except.ok ([List.replicate 25000 blankRow].flatten ++ [blankRow]),
         (List.range 2).map (fun i => 25000 * i)) :=
  fetchGSCDataForDate_pagination_c4 "2023-01-01" [List.replicate 25000 blankRow]
    [blankRow]
    (fun p hp => by
      rw [List.mem_singleton] at hp
      rw [hp]
      exact List.length_replicate 25000 blankRow)
    (by norm_num)

/-- One orchestrator day adds exactly `dayWritten` to the accumulator. -/
theorem processDay_add (t : Nat) (d : DayRun) :
    processDay t d = t + dayWritten d := by
  cases hd : d.fetchResult with
  | error e => simp [processDay, dayWritten, hd]
  | ok rows =>
    by_cases hl : 0 < rows.length <;> by_cases hp : d.persistOk = true <;>
      simp [processDay, dayWritten, hd, hl, hp]

/-- The orchestrator fold accumulates the per-day written counts. -/
theorem foldl_processDay (days : List DayRun) :
    ∀ t : Nat, days.foldl processDay t = t + (days.map dayWritten).sum := by
  induction days with
  | nil => intro t; simp
  | cons d days ih =>
    intro t
    simp [List.foldl_cons, processDay_add, ih, Nat.add_assoc]

/-- C6: orchestration isolation: with all three inputs present, a range
whose days are `pre ++ [bad] ++ post` where every day of `pre` and `post`
fetched and persisted successfully and `bad` failed (fetch error, or
persist failure) still completes: the result is `success = true` and
`totalRowsWritten` is exactly the sum of the row counts of the successful
days, the failed day contributing nothing. -/
theorem ingestGSCData_isolation_c6 (siteUrl startDate endDate : String)
    (h1 : siteUrl ≠ "") (h2 : startDate ≠ "") (h3 : endDate ≠ "")
    (pre post : List DayRun) (bad : DayRun)
    (hbad : (∃ e, bad.fetchResult = Except.error e) ∨ bad.persistOk = false)
    (hpre : ∀ d ∈ pre, d.persistOk = true ∧ ∃ rows, d.fetchResult = Except.ok rows)
    (hpost : ∀ d ∈ post, d.persistOk = true ∧ ∃ rows, d.fetchResult = Except.ok rows) :
    ingestGSCData siteUrl startDate endDate (pre ++ bad :: post)
      = (true, (pre.map dayRows).sum + (post.map dayRows).sum) := by
  have hbad0 : dayWritten bad = 0 := by
    rcases hbad with ⟨e, he⟩ | hp
    · simp [dayWritten, he]
    · cases hf : bad.fetchResult <;> simp [dayWritten, hf, hp]
  have hgood : ∀ l : List DayRun,
      (∀ d ∈ l, d.persistOk = true ∧ ∃ rows, d.fetchResult = Except.ok rows) →
      l.map dayWritten = l.map dayRows := by
    intro l hl
    apply List.map_congr_left
    intro d hd
    obtain ⟨hp, rows, hr⟩ := hl d hd
    by_cases h0 : 0 < rows.length
    · simp [dayWritten, dayRows, hr, hp, h0]
    · have h0' : rows.length = 0 := by omega
      simp [dayWritten, dayRows, hr, hp, h0, h0']
  rw [ingestGSCData, if_neg (by push_neg; exact ⟨h1, h2, h3⟩), foldl_processDay]
  simp [hbad0, hgood pre hpre, hgood post hpost]

/-- C6 witness: a three-day range whose middle day's fetch fails; the two
good days' 2 + 1 rows are counted and the result still reports success. -/
theorem ingestGSCData_isolation_c6_witness :
    ingestGSCData "sc-domain:example.com" "2023-01-01" "2023-01-03"
        [⟨Except.ok [blankRow, blankRow], true⟩,
         ⟨Except.error "Failed to fetch GSC data for 2023-01-02 after 5 attempts.", true⟩,
         ⟨Except.ok [blankRow], true⟩]
      = (true, 3) := by
  have h := ingestGSCData_isolation_c6 "sc-domain:example.com" "2023-01-01"
    "2023-01-03" (by decide) (by decide) (by decide)
    [⟨Except.ok [blankRow, blankRow], true⟩] [⟨Except.ok [blankRow], true⟩]
    ⟨Except.error "Failed to fetch GSC data for 2023-01-02 after 5 attempts.", true⟩
    (Or.inl ⟨_, rfl⟩)
    (by intro d hd; simp at hd; subst hd; exact ⟨rfl, _, rfl⟩)
    (by intro d hd; simp at hd; subst hd; exact ⟨rfl, _, rfl⟩)
  simpa [dayRows] using h

/-- Chunking by `n > 0` with enough fuel concatenates back to the input:
the chunks partition the document list in order. -/
theorem chunksOfAux_join {α : Type} (n : Nat) (hn : 0 < n) :
    ∀ (fuel : Nat) (l : List α), l.length ≤ fuel →
      (chunksOfAux n fuel l).flatten = l := by
  intro fuel
  induction fuel with
  | zero =>
    intro l hl
    have : l = [] := List.eq_nil_of_length_eq_zero (Nat.le_zero.mp hl)
    subst this
    simp [chunksOfAux]
  | succ fuel ih =>
    intro l hl
    cases l with
    | nil => simp [chunksOfAux]
    | cons x xs =>
      have hdrop : ((x :: xs).drop n).length ≤ fuel := by
        simp only [List.length_drop, List.length_cons]
        simp only [List.length_cons] at hl
        omega
      simp only [chunksOfAux, List.flatten_cons, ih _ hdrop]
      exact List.take_append_drop n (x :: xs)

/-- All-successful committing walks every chunk in order. -/
theorem commitBatches_ok (cs : List (List GscFirestoreDoc)) :
    ∀ i, commitBatches okCommit cs i = (List.enumFrom i cs, Except.ok ()) := by
  induction cs with
  | nil => intro i; simp [commitBatches, List.enumFrom]
  | cons c cs ih => intro i; simp [commitBatches, okCommit, List.enumFrom, ih]

set_option maxRecDepth 100000 in
/-- C7: batching: the 500-chunks concatenate back to the input in order;
with an always-successful store every chunk is committed in order (1200
records make batches of 500/500/200, 1000 make 500/500, 100 make one batch
of 100); and zero records produce no batch and no commit call whatever the
store would answer. -/
theorem writeToFirestoreInBatches_batching_c7 :
    (∀ docs : List GscFirestoreDoc, (chunksOf 500 docs).flatten = docs)
    ∧ (∀ docs : List GscFirestoreDoc,
        writeToFirestoreInBatches okCommit docs
          = ((chunksOf 500 docs).enum, Except.ok ()))
    ∧ (chunksOf 500 (List.replicate 1200 blankDoc)).map List.length
        = [500, 500, 200]
    ∧ (chunksOf 500 (List.replicate 1000 blankDoc)).map List.length
        = [500, 500]
    ∧ (chunksOf 500 (List.replicate 100 blankDoc)).map List.length = [100]
    ∧ (∀ commit, writeToFirestoreInBatches commit []
        = ([], Except.ok ())) := by
  refine ⟨?_, ?_, ?_, ?_, ?_, ?_⟩
  · intro docs
    exact chunksOfAux_join 500 (by norm_num) docs.length docs (Nat.le_refl _)
  · intro docs
    rw [writeToFirestoreInBatches, commitBatches_ok]
    rfl
  · decide
  · decide
  · decide
  · intro commit; rfl

/-- Aborting commit walk: if the commits before position `k` succeed and
the commit at `k` fails with `e`, exactly the first `k + 1` batches are
attempted and `e` is propagated unchanged. -/
theorem commitBatches_abort
    (commit : Nat → List GscFirestoreDoc → Except String Unit) (e : String) :
    ∀ (cs : List (List GscFirestoreDoc)) (n k : Nat), k < cs.length →
      (∀ i, i < k → commit (n + i) (cs.getD i []) = Except.ok ()) →
      commit (n + k) (cs.getD k []) = Except.error e →
      commitBatches commit cs n
        = ((List.enumFrom n cs).take (k + 1), Except.error e) := by
  intro cs
  induction cs with
  | nil => intro n k hk; simp at hk
  | cons c cs ih =>
    intro n k hk hok herr
    cases k with
    | zero =>
      have h0 : commit n c = Except.error e := by simpa using herr
      simp [commitBatches, h0, List.enumFrom]
    | succ k =>
      have h0 : commit n c = Except.ok () := by
        simpa using hok 0 (Nat.succ_pos k)
      have hok2 : ∀ i, i < k → commit (n + 1 + i) (cs.getD i []) = Except.ok () := by
        intro i hi
        have h := hok (i + 1) (Nat.succ_lt_succ hi)
        have harith : n + (i + 1) = n + 1 + i := by omega
        rw [harith] at h
        simpa using h
      have herr2 : commit (n + 1 + k) (cs.getD k []) = Except.error e := by
        have harith : n + (k + 1) = n + 1 + k := by omega
        rw [harith] at herr
        simpa using herr
      have hk2 : k < cs.length := by simpa using hk
      simp [commitBatches, h0, ih (n + 1) k hk2 hok2 herr2, List.enumFrom]

/-- C8: persister failure policy: for every record list, store behaviour
and position `k` inside the chunk list, if the commits before `k` succeed
and the commit of batch `k` fails, then exactly the batches up to and
including `k` are attempted — none after — and the original error is
propagated unchanged. -/
theorem writeToFirestoreInBatches_abort_c8 (docs : List GscFirestoreDoc)
    (commit : Nat → List GscFirestoreDoc → Except String Unit)
    (k : Nat) (e : String)
    (hk : k < (chunksOf 500 docs).length)
    (hok : ∀ i, i < k → commit i ((chunksOf 500 docs).getD i []) = Except.ok ())
    (herr : commit k ((chunksOf 500 docs).getD k []) = Except.error e) :
    writeToFirestoreInBatches commit docs
      = ((chunksOf 500 docs).enum.take (k + 1), Except.error e) := by
  have h := commitBatches_abort commit e (chunksOf 500 docs) 0 k hk
    (fun i hi => by simpa using hok i hi) (by simpa using herr)
  simpa [writeToFirestoreInBatches, List.enum] using h

set_option maxRecDepth 100000 in
/-- C8 witness: 1200 records against a store failing on the second batch —
the first and second batches are attempted, the third is not, and the
original `permission denied` error surfaces. -/
theorem writeToFirestoreInBatches_abort_c8_witness :
    writeToFirestoreInBatches failsAtOneCommit (List.replicate 1200 blankDoc)
      = ((chunksOf 500 (List.replicate 1200 blankDoc)).enum.take 2,
         Except.error "permission denied") :=
  writeToFirestoreInBatches_abort_c8 (List.replicate 1200 blankDoc)
    failsAtOneCommit 1 "permission denied" (by decide)
    (fun i hi => by
      have h0 : i = 0 := by omega
      subst h0
      rfl)
    rfl

/-- C10: the claim says canonicalization is idempotent for every input; the
`forEach`/`delete` skip makes it non-idempotent: one pass over
`?utm_a=1&utm_b=2` leaves `utm_b`, and a second pass removes it. -/
theorem canonicalizeUrl_not_idempotent_c10 :
    canonicalizeUrl "https://example.com/page?utm_a=1&utm_b=2"
      = "https://example.com/page?utm_b=2"
    ∧ canonicalizeUrl (canonicalizeUrl "https://example.com/page?utm_a=1&utm_b=2")
      = "https://example.com/page"
    ∧ canonicalizeUrl (canonicalizeUrl "https://example.com/page?utm_a=1&utm_b=2")
      ≠ canonicalizeUrl "https://example.com/page?utm_a=1&utm_b=2" := by decide

end SeoEdge
